import Mathlib

/-!
# Verification of `dice.py`

Shallow embedding of the dice-rolling command-line utility in `src/dice.py`.
Strings are modelled as `List Char`; Python exceptions are modelled with an
explicit outcome type; the random source of `random.randint` is modelled as
an oracle function together with its range contract.

The ASCII-art asset (the `pyproject.toml` file read at start-up) is not part
of the source tree, so the module-level globals `DICE_ART`, `DIE_HEIGHT` and
`DIE_WIDTH` are modelled by parametrizing every function over the loaded art
table and deriving the two scalars exactly as the code does
(`DIE_HEIGHT = len(DICE_ART[1])`, `DIE_WIDTH = len(DICE_ART[1][0])`).
-/

set_option autoImplicit false

namespace Dice

/-- A Python string, modelled as a list of characters. -/
abbrev Str := List Char

/-- `DIE_FACE_SEPARATOR = " "` from `dice.py`. -/
def DIE_FACE_SEPARATOR : Str := [' ']

/-- `DIE_HEIGHT = len(DICE_ART[1])` from `dice.py`, parametrized over the
loaded art table. -/
def DIE_HEIGHT (art : List (List Str)) : Nat := (art.getD 1 []).length

/-- `DIE_WIDTH = len(DICE_ART[1][0])` from `dice.py`, parametrized over the
loaded art table. -/
def DIE_WIDTH (art : List (List Str)) : Nat := ((art.getD 1 []).getD 0 []).length

/-- Python `str.isspace` membership for the characters `str.strip` removes,
restricted to the ASCII whitespace characters. -/
def py_isspace (c : Char) : Bool :=
  c = ' ' || c = '\t' || c = '\n' || c = '\x0d' || c = '\x0b' || c = '\x0c'

/-- Python `str.strip()`: drop leading and trailing whitespace. -/
def py_strip (s : Str) : Str :=
  ((s.dropWhile py_isspace).reverse.dropWhile py_isspace).reverse

/-- Decimal digit test, as in CPython's `int` conversion. -/
def is_digit (c : Char) : Bool := '0' ≤ c && c ≤ '9'

/-- Numeric value of a decimal digit character. -/
def digitVal (c : Char) : Nat := c.toNat - '0'.toNat

/-- Continuation of the CPython decimal-digit scanner: consumes digits, with a
single underscore allowed only between two digits, accumulating the value. -/
def py_digits_aux : Str → Nat → Option Nat
  | [], acc => some acc
  | '_' :: c :: rest, acc =>
      if is_digit c then py_digits_aux rest (acc * 10 + digitVal c) else none
  | ['_'], _ => none
  | c :: rest, acc =>
      if is_digit c then py_digits_aux rest (acc * 10 + digitVal c) else none

/-- CPython decimal-digit scanner for `int(s)`: a non-empty digit sequence with
optional single underscores strictly between digits. -/
def py_digits : Str → Option Nat
  | [] => none
  | c :: rest => if is_digit c then py_digits_aux rest (digitVal c) else none

/-- The sign-and-digits part of CPython's `int(s)` after surrounding
whitespace has been removed: an optional single `+`/`-` sign followed
immediately by the digit sequence. -/
def py_int_stripped (t : Str) : Option Int :=
  match t with
  | [] => none
  | c :: rest =>
      if c = '+' then (py_digits rest).map Int.ofNat
      else if c = '-' then (py_digits rest).map (fun n => -(Int.ofNat n))
      else (py_digits t).map Int.ofNat

/-- Python `int(s)` on a string argument (base 10): surrounding whitespace is
ignored, then an optional sign and a non-empty digit sequence; `none` models a
raised `ValueError`. -/
def py_int (s : Str) : Option Int := py_int_stripped (py_strip s)

/-- CPython `str.center(width, fill)`: the string unchanged when `width` does
not exceed its length, otherwise padded with
`left = marg / 2 + (marg &&& width &&& 1)` fill characters on the left and the
rest on the right, where `marg = width - len`. -/
def py_center (s : Str) (width : Nat) (fill : Char) : Str :=
  if width ≤ s.length then s
  else
    let marg := width - s.length
    let left := marg / 2 + (marg &&& width &&& 1)
    List.replicate left fill ++ s ++ List.replicate (marg - left) fill

/-- Outcome of running a fragment of the Python program: a returned value, a
`SystemExit` with an exit code, or a raised `ValueError`. -/
inductive PyOutcome where
  | ok (n : Int)
  | exit (code : Nat)
  | valueError
  deriving DecidableEq, Repr

/-- The whitelist `{"1", "2", "3", "4", "5", "6"}` from `parse_input`. -/
def ACCEPTED : List Str := [['1'], ['2'], ['3'], ['4'], ['5'], ['6']]

/-- The diagnostic printed by `parse_input` on rejection. -/
def ERROR_MSG : Str := "Please enter a number from 1 to 6.".toList

/-- `parse_input` from `dice.py`: if the stripped input is in the whitelist,
return `int(input_string)` applied to the original, untrimmed string;
otherwise print the diagnostic and raise `SystemExit(1)`. The first component
collects the lines printed. -/
def parse_input (input_string : Str) : List Str × PyOutcome :=
  if py_strip input_string ∈ ACCEPTED then
    match py_int input_string with
    | some v => ([], .ok v)
    | none => ([], .valueError)
  else
    ([ERROR_MSG], .exit 1)

/-- `roll_dice` from `dice.py`: `[random.randint(0, 5) for _ in range(num_dice)]`,
with the random source modelled as an oracle giving the value of the i-th draw. -/
def roll_dice (rng : Nat → Nat) (num_dice : Nat) : List Nat :=
  (List.range num_dice).map rng

/-- Python `str.join` on a list of strings: the pieces concatenated with the
separator between adjacent pieces, no leading or trailing separator. -/
def py_join (sep : Str) : List Str → Str
  | [] => []
  | [x] => x
  | x :: y :: xs => x ++ sep ++ py_join sep (y :: xs)

/-- `roll_art` from `dice.py`: look up each result's face art, then for each
row index in `range(DIE_HEIGHT)` join that row of every face with
`DIE_FACE_SEPARATOR`. Out-of-range indexing is modelled by `getD` here; the
checked variant `roll_art_checked` below models it exactly. -/
def roll_art (art : List (List Str)) (roll_results : List Nat) : List Str :=
  let faces := roll_results.map (fun face => art.getD face [])
  (List.range (DIE_HEIGHT art)).map
    (fun row_idx => py_join DIE_FACE_SEPARATOR (faces.map (fun face => face.getD row_idx [])))

/-- `roll_art` with Python's raising semantics for list indexing: `none`
models an `IndexError` from `DICE_ART[face]` or `face[row_idx]`. -/
def roll_art_checked (art : List (List Str)) (roll_results : List Nat) : Option (List Str) :=
  (roll_results.mapM (fun face : Nat => art.get? face)).bind
    (fun faces : List (List Str) =>
      (List.range (DIE_HEIGHT art)).mapM
        (fun row_idx : Nat =>
          (faces.mapM (fun face : List Str => face.get? row_idx)).map
            (py_join DIE_FACE_SEPARATOR)))

/-- The header text `" RESULTS "` from `roll_art_display`. -/
def RESULTS_TEXT : Str := " RESULTS ".toList

/-- The header line `" RESULTS ".center(width, "~")` of `roll_art_display`,
where `width = len(face_rows[0])`; `none` models the `IndexError` raised when
`face_rows` is empty. -/
def diagram_header (face_rows : List Str) : Option Str :=
  (face_rows.get? 0).map (fun first => py_center RESULTS_TEXT first.length '~')

/-- `roll_art_display` from `dice.py`: the full text printed,
`"\n".join([diagram_header] + face_rows)`; `none` models the `IndexError` on
an empty `face_rows`. -/
def roll_art_display (face_rows : List Str) : Option Str :=
  (diagram_header face_rows).map (fun hd => py_join ['\n'] (hd :: face_rows))

/-- Spec-side description of row assembly (section 4.4, step B of the spec):
the first face's row followed, for each later face in roll order, by exactly
one space and that face's row — so exactly one separator between adjacent
faces and no leading or trailing separator. -/
def spec_row_join : List Str → Str
  | [] => []
  | x :: xs => x ++ (xs.map (fun r => ' ' :: r)).flatten

/-! ## Helper lemmas -/

/-- Enumerate the six members of the `parse_input` whitelist. -/
lemma accepted_cases (t : Str) (h : t ∈ ACCEPTED) :
    t = ['1'] ∨ t = ['2'] ∨ t = ['3'] ∨ t = ['4'] ∨ t = ['5'] ∨ t = ['6'] := by
  simpa [ACCEPTED] using h

/-- `str.strip` is idempotent in the sense needed here: if the stripped input
is a single non-sign digit, `int()` on the original string succeeds with that
digit's value. -/
lemma py_int_strip_digit (s : Str) (d : Char) (h : py_strip s = [d])
    (hd : is_digit d = true) (hp : ¬ d = '+') (hm : ¬ d = '-') :
    py_int s = some (Int.ofNat (digitVal d)) := by
  unfold py_int py_int_stripped
  rw [h]
  simp [hp, hm, py_digits, hd, py_digits_aux]

/-- Accepted inputs: the returned value agrees with `int` on both the raw and
the stripped string and lies in `[1, 6]`. -/
lemma parse_input_accept_case (s : Str) (d : Char)
    (h : py_strip s ∈ ACCEPTED) (h1 : py_strip s = [d])
    (hd : is_digit d = true) (hp : ¬ d = '+') (hm : ¬ d = '-')
    (hlo : 1 ≤ Int.ofNat (digitVal d)) (hhi : Int.ofNat (digitVal d) ≤ 6)
    (hone : py_int [d] = some (Int.ofNat (digitVal d))) :
    ∃ v : Int, parse_input s = ([], PyOutcome.ok v) ∧ py_int s = some v ∧
      1 ≤ v ∧ v ≤ 6 ∧ py_int (py_strip s) = some v := by
  have hint := py_int_strip_digit s d h1 hd hp hm
  refine ⟨Int.ofNat (digitVal d), ?_, hint, hlo, hhi, ?_⟩
  · simp only [parse_input]
    rw [if_pos h, hint]
  · rw [h1]
    exact hone

/-- Any accepted input yields an integer in `[1, 6]` agreeing with `int` on
both the raw and the stripped string. -/
lemma parse_input_accept (s : Str) (h : py_strip s ∈ ACCEPTED) :
    ∃ v : Int, parse_input s = ([], PyOutcome.ok v) ∧ py_int s = some v ∧
      1 ≤ v ∧ v ≤ 6 ∧ py_int (py_strip s) = some v := by
  rcases accepted_cases _ h with h1 | h1 | h1 | h1 | h1 | h1 <;>
    exact parse_input_accept_case s _ h h1 (by decide) (by decide) (by decide)
      (by decide) (by decide) (by decide)

/-! ## C1, C2, C10: the input parser -/

/-- C1: for every input string whose whitespace-trimmed form is one of the six
literal digit strings `"1"`–`"6"`, `parse_input` returns the corresponding
integer in `[1, 6]`, equal to Python `int` applied to the input; and
acceptance (returning a value at all) holds exactly when the trimmed string is
a member of the whitelist `{"1", ..., "6"}`. -/
theorem parse_input_whitelist (s : Str) :
    (py_strip s ∈ ACCEPTED →
      ∃ v : Int, parse_input s = ([], PyOutcome.ok v) ∧ py_int s = some v ∧
        1 ≤ v ∧ v ≤ 6) ∧
    ((∃ v, (parse_input s).2 = PyOutcome.ok v) ↔ py_strip s ∈ ACCEPTED) := by
  constructor
  · intro h
    obtain ⟨v, h1, h2, h3, h4, _⟩ := parse_input_accept s h
    exact ⟨v, h1, h2, h3, h4⟩
  · constructor
    · rintro ⟨v, hv⟩
      by_contra hmem
      simp only [parse_input] at hv
      rw [if_neg hmem] at hv
      exact PyOutcome.noConfusion hv
    · intro h
      obtain ⟨v, h1, _⟩ := parse_input_accept s h
      exact ⟨v, by rw [h1]⟩

/-- Witness for C1 at the concrete input `" 3"`. -/
theorem parse_input_whitelist_witness :
    ∃ v : Int, parse_input [' ', '3'] = ([], PyOutcome.ok v) ∧
      py_int [' ', '3'] = some v ∧ 1 ≤ v ∧ v ≤ 6 :=
  (parse_input_whitelist [' ', '3']).1 (by decide)

/-- C2: for every input string whose whitespace-trimmed form is not in the
whitelist, `parse_input` prints the message telling the user to enter a number
from 1 to 6 and raises `SystemExit` with the non-zero exit code 1, returning
no value. -/
theorem parse_input_reject (s : Str) (h : py_strip s ∉ ACCEPTED) :
    parse_input s = ([ERROR_MSG], PyOutcome.exit 1) ∧
    (∀ v, (parse_input s).2 ≠ PyOutcome.ok v) ∧ (1 : Nat) ≠ 0 := by
  have heq : parse_input s = ([ERROR_MSG], PyOutcome.exit 1) := by
    simp only [parse_input]
    rw [if_neg h]
  exact ⟨heq, fun v hv => by rw [heq] at hv; exact PyOutcome.noConfusion hv,
    by decide⟩

/-- Witness for C2 at the concrete input `"7"`. -/
theorem parse_input_reject_witness :
    parse_input ['7'] = ([ERROR_MSG], PyOutcome.exit 1) ∧
    (∀ v, (parse_input ['7']).2 ≠ PyOutcome.ok v) ∧ (1 : Nat) ≠ 0 :=
  parse_input_reject ['7'] (by decide)

/-- C10: in the accept branch, `int` is applied to the original untrimmed
input string; for every string whose trimmed form is in the whitelist this
conversion succeeds (never raises `ValueError`), yields the same value as
converting the trimmed string, and that value is in `[1, 6]`. -/
theorem parse_input_int_untrimmed (s : Str) (h : py_strip s ∈ ACCEPTED) :
    ∃ v : Int, py_int s = some v ∧ py_int (py_strip s) = some v ∧
      parse_input s = ([], PyOutcome.ok v) ∧ 1 ≤ v ∧ v ≤ 6 := by
  obtain ⟨v, h1, h2, h3, h4, h5⟩ := parse_input_accept s h
  exact ⟨v, h2, h5, h1, h3, h4⟩

/-- Witness for C10 at the concrete input `" 6 "` (whitespace on both sides of
the digit, so the untrimmed string differs from the trimmed one). -/
theorem parse_input_int_untrimmed_witness :
    ∃ v : Int, py_int [' ', '6', ' '] = some v ∧
      py_int (py_strip [' ', '6', ' ']) = some v ∧
      parse_input [' ', '6', ' '] = ([], PyOutcome.ok v) ∧ 1 ≤ v ∧ v ≤ 6 :=
  parse_input_int_untrimmed [' ', '6', ' '] (by decide)

/-! ## C3: the roller -/

/-- C3: for every validated die count `n` in `[1, 6]` and every outcome of the
random source respecting the `randint(0, 5)` contract, `roll_dice` returns a
list of exactly `n` integers in generation order, each in `[0, 5]`. -/
theorem roll_dice_length_range (rng : Nat → Nat) (hrng : ∀ i, rng i ≤ 5)
    (n : Nat) (_h1 : 1 ≤ n) (_h6 : n ≤ 6) :
    (roll_dice rng n).length = n ∧
    (∀ r ∈ roll_dice rng n, r ≤ 5) ∧
    (∀ i, i < n → (roll_dice rng n).get? i = some (rng i)) := by
  refine ⟨by simp [roll_dice], ?_, ?_⟩
  · intro r hr
    simp only [roll_dice, List.mem_map, List.mem_range] at hr
    obtain ⟨i, _, rfl⟩ := hr
    exact hrng i
  · intro i hi
    simp [roll_dice, List.get?_eq_getElem?, List.getElem?_map,
      List.getElem?_range hi]

/-- Witness for C3 with the constant random source `0` and `n = 3`. -/
theorem roll_dice_length_range_witness :
    (roll_dice (fun _ => 0) 3).length = 3 ∧
    (∀ r ∈ roll_dice (fun _ => 0) 3, r ≤ 5) ∧
    (∀ i, i < 3 → (roll_dice (fun _ => 0) 3).get? i = some ((fun _ => 0) i)) :=
  roll_dice_length_range (fun _ => 0) (fun _ => Nat.zero_le 5) 3 (by decide)
    (by decide)

/-! ## Renderer helper lemmas -/

/-- Unfolding of Python `join` on a non-empty list: the head followed by the
separator-prefixed remaining pieces. -/
lemma py_join_cons_eq (sep : Str) (x : Str) (xs : List Str) :
    py_join sep (x :: xs) = x ++ (xs.map (fun r => sep ++ r)).flatten := by
  induction xs generalizing x with
  | nil => simp [py_join]
  | cons y ys ih =>
    rw [py_join, ih y]
    simp [List.append_assoc]

/-- Joining with the die-face separator agrees with the spec-side row
assembly. -/
lemma py_join_space_spec (xs : List Str) :
    py_join DIE_FACE_SEPARATOR xs = spec_row_join xs := by
  cases xs with
  | nil => rfl
  | cons x xs => rw [py_join_cons_eq, spec_row_join]; rfl

/-- `roll_art` produces one line per art row index. -/
lemma roll_art_length (art : List (List Str)) (rs : List Nat) :
    (roll_art art rs).length = DIE_HEIGHT art := by
  simp [roll_art]

/-- The `i`-th line of `roll_art`, for `i` below the art height. -/
lemma roll_art_get? (art : List (List Str)) (rs : List Nat) (i : Nat)
    (hi : i < DIE_HEIGHT art) :
    (roll_art art rs).get? i =
      some (py_join DIE_FACE_SEPARATOR
        (rs.map (fun face => (art.getD face []).getD i []))) := by
  simp only [roll_art, List.get?_eq_getElem?, List.getElem?_map,
    List.getElem?_range hi, List.map_map, Option.map_some']
  rfl

/-! ## C4: row assembly -/

/-- C4: for every non-empty list of roll results with each element in
`[0, 5]`, `roll_art` returns exactly `DIE_HEIGHT` lines, and for each row
index `i` below `DIE_HEIGHT` the `i`-th line is the concatenation of row `i`
of each rolled face's art in roll order, with exactly one literal space
between adjacent faces and no leading or trailing separator. -/
theorem roll_art_row_assembly (art : List (List Str)) (rs : List Nat)
    (_hne : rs ≠ []) (_hr : ∀ r ∈ rs, r ≤ 5) :
    (roll_art art rs).length = DIE_HEIGHT art ∧
    ∀ i, i < DIE_HEIGHT art →
      (roll_art art rs).get? i =
        some (spec_row_join
          (rs.map (fun face => (art.getD face []).getD i []))) := by
  refine ⟨roll_art_length art rs, fun i hi => ?_⟩
  rw [roll_art_get? art rs i hi, py_join_space_spec]

/-- Witness for C4 on a concrete two-face art table and the roll `[0, 1]`. -/
theorem roll_art_row_assembly_witness :
    (roll_art [[['a']], [['b']], [['c']], [['d']], [['e']], [['f']]]
        [0, 1]).length =
      DIE_HEIGHT [[['a']], [['b']], [['c']], [['d']], [['e']], [['f']]] ∧
    ∀ i, i < DIE_HEIGHT [[['a']], [['b']], [['c']], [['d']], [['e']], [['f']]] →
      (roll_art [[['a']], [['b']], [['c']], [['d']], [['e']], [['f']]]
          [0, 1]).get? i =
        some (spec_row_join
          ([0, 1].map (fun face =>
            (([[['a']], [['b']], [['c']], [['d']], [['e']],
                [['f']]].getD face [])).getD i []))) :=
  roll_art_row_assembly [[['a']], [['b']], [['c']], [['d']], [['e']], [['f']]]
    [0, 1] (by decide) (by decide)

/-! ## Centering helper lemmas -/

/-- The header text has nine characters. -/
lemma results_text_length : RESULTS_TEXT.length = 9 := by decide

/-- The CPython centering bit `marg &&& width &&& 1` vanishes for the
nine-character header text: `marg = width - 9` and `width` always have
opposite parity, so their low bits never coincide. -/
lemma center_bit_zero (w : Nat) (h : 9 ≤ w) : (w - 9) &&& w &&& 1 = 0 := by
  rw [Nat.and_assoc, Nat.and_one_is_mod]
  rcases Nat.mod_two_eq_zero_or_one w with h2 | h2
  · rw [h2, Nat.and_zero]
  · rw [h2, Nat.and_one_is_mod]
    omega

/-- Centering the header text in any width at least 9: the left pad is the
floor half of the margin, the right pad takes the remainder. -/
lemma py_center_results (w : Nat) (h : 9 ≤ w) :
    py_center RESULTS_TEXT w '~' =
      List.replicate ((w - 9) / 2) '~' ++ RESULTS_TEXT ++
        List.replicate ((w - 9) - (w - 9) / 2) '~' := by
  by_cases hle : w ≤ 9
  · have h9 : w = 9 := le_antisymm hle h
    subst h9
    simp [py_center, results_text_length]
  · simp only [py_center, results_text_length]
    rw [if_neg (by omega : ¬ w ≤ 9), center_bit_zero w h]
    simp

/-- The length of the centered header is the width clamped below by the
text's own nine characters (`str.center` never truncates). -/
lemma py_center_results_length (w : Nat) :
    (py_center RESULTS_TEXT w '~').length = max w 9 := by
  by_cases h : 9 ≤ w
  · rw [py_center_results w h]
    simp only [List.length_append, List.length_replicate, results_text_length]
    omega
  · simp only [py_center, results_text_length]
    rw [if_pos (by omega : w ≤ 9), results_text_length]
    omega

/-! ## C6: header centering -/

/-- C6: for every assembled-row width at least 9, the header line is the
literal text `" RESULTS "` padded on both sides with `~`, the two pads
exhaust the margin and are uniquely determined: the left pad is exactly the
floor half of the total padding, so the pads are equal when the total padding
is even and the extra pad character goes on the right when it is odd. -/
theorem header_centered (face_rows : List Str) (first : Str)
    (h0 : face_rows.get? 0 = some first) (hw : 9 ≤ first.length) :
    ∃ l r : Nat,
      diagram_header face_rows =
        some (List.replicate l '~' ++ RESULTS_TEXT ++ List.replicate r '~') ∧
      l + 9 + r = first.length ∧
      l = (first.length - 9) / 2 ∧
      r = (first.length - 9) - (first.length - 9) / 2 ∧
      ((first.length - 9) % 2 = 0 → r = l) ∧
      ((first.length - 9) % 2 = 1 → r = l + 1) := by
  refine ⟨(first.length - 9) / 2,
    (first.length - 9) - (first.length - 9) / 2, ?_, by omega, rfl, rfl,
    by omega, by omega⟩
  simp only [diagram_header, h0, Option.map_some']
  rw [py_center_results first.length hw]

/-- Witness for C6: a single rendered row of twenty characters, so the total
padding `20 - 9 = 11` is odd and the split is pinned to `l = 5`, `r = 6`. -/
theorem header_centered_witness :
    ∃ l r : Nat,
      diagram_header [List.replicate 20 'a'] =
        some (List.replicate l '~' ++ RESULTS_TEXT ++ List.replicate r '~') ∧
      l + 9 + r = (List.replicate 20 'a' : Str).length ∧
      l = ((List.replicate 20 'a' : Str).length - 9) / 2 ∧
      r = ((List.replicate 20 'a' : Str).length - 9) -
        ((List.replicate 20 'a' : Str).length - 9) / 2 ∧
      (((List.replicate 20 'a' : Str).length - 9) % 2 = 0 → r = l) ∧
      (((List.replicate 20 'a' : Str).length - 9) % 2 = 1 → r = l + 1) :=
  header_centered [List.replicate 20 'a'] (List.replicate 20 'a') rfl
    (by decide)

/-! ## Row-length helper lemmas -/

/-- Length of a Python join with the one-character die-face separator over a
non-empty list of equal-length pieces. -/
lemma py_join_length_cons (x : Str) (xs : List Str) (W : Nat)
    (hx : x.length = W) (h : ∀ y ∈ xs, y.length = W) :
    (py_join DIE_FACE_SEPARATOR (x :: xs)).length =
      (xs.length + 1) * W + xs.length := by
  induction xs generalizing x with
  | nil => simp [py_join, hx]
  | cons y ys ih =>
    show (x ++ DIE_FACE_SEPARATOR ++
      py_join DIE_FACE_SEPARATOR (y :: ys)).length = _
    rw [List.length_append, List.length_append,
      ih y (h y (by simp)) (fun z hz => h z (by simp [hz])), hx]
    show W + 1 + ((ys.length + 1) * W + ys.length) = _
    simp only [List.length_cons]
    ring

/-- Every face looked up from a roll result lies in the art table, so under
the uniform-art hypothesis each piece of a rendered row has width
`DIE_WIDTH`. -/
lemma row_piece_length (art : List (List Str)) (rs : List Nat) (i : Nat)
    (hart : art.length = 6)
    (huni : ∀ face ∈ art, face.length = DIE_HEIGHT art ∧
      ∀ row ∈ face, row.length = DIE_WIDTH art)
    (hr : ∀ r ∈ rs, r ≤ 5) (hi : i < DIE_HEIGHT art) :
    ∀ s ∈ rs.map (fun face => (art.getD face []).getD i []),
      s.length = DIE_WIDTH art := by
  intro s hs
  simp only [List.mem_map] at hs
  obtain ⟨f, hf, rfl⟩ := hs
  have hflt : f < art.length := by
    have := hr f hf
    omega
  have hmem : art.getD f [] ∈ art := by
    rw [List.getD_eq_getElem art [] hflt]
    exact List.getElem_mem hflt
  obtain ⟨hfaceH, hfaceW⟩ := huni _ hmem
  have hiF : i < (art.getD f []).length := by rw [hfaceH]; exact hi
  have hrow : (art.getD f []).getD i [] ∈ art.getD f [] := by
    rw [List.getD_eq_getElem _ [] hiF]
    exact List.getElem_mem hiF
  exact hfaceW _ hrow

/-- Under the uniform-art hypothesis, each rendered row of `n` dice has
exactly `n * DIE_WIDTH + (n - 1)` characters. -/
lemma roll_art_row_length (art : List (List Str)) (rs : List Nat) (i : Nat)
    (hart : art.length = 6)
    (huni : ∀ face ∈ art, face.length = DIE_HEIGHT art ∧
      ∀ row ∈ face, row.length = DIE_WIDTH art)
    (hr : ∀ r ∈ rs, r ≤ 5) (hi : i < DIE_HEIGHT art) (hne : rs ≠ []) :
    (py_join DIE_FACE_SEPARATOR
      (rs.map (fun face => (art.getD face []).getD i []))).length =
      rs.length * DIE_WIDTH art + (rs.length - 1) := by
  have hlen := row_piece_length art rs i hart huni hr hi
  cases rs with
  | nil => cases hne rfl
  | cons a as =>
    rw [List.map_cons,
      py_join_length_cons _ _ (DIE_WIDTH art) (hlen _ (by simp))
        (fun y hy => hlen y (List.mem_cons_of_mem _ hy))]
    simp [List.length_map, List.length_cons, Nat.succ_sub_one]

/-! ## C5: header width -/

/-- C5 counterexample: with a uniform six-entry art table of height 1 and
width 1 and a single die rolled, all of the claim's preconditions hold, the
assembled row has `n * DIE_WIDTH + (n - 1) = 1` characters, but the printed
header line has 9 characters (`str.center` never truncates its text), so the
claimed equality fails. -/
theorem header_width_counterexample :
    (∀ r ∈ ([0] : List Nat), r ≤ 5) ∧
    (List.replicate 6 [['#']] : List (List Str)).length = 6 ∧
    (∀ face ∈ (List.replicate 6 [['#']] : List (List Str)),
      face.length = DIE_HEIGHT (List.replicate 6 [['#']]) ∧
      ∀ row ∈ face, row.length = DIE_WIDTH (List.replicate 6 [['#']])) ∧
    (List.replicate 6 [['#']] : List (List Str)).length = 6 ∧
    (1 : Nat) * DIE_WIDTH (List.replicate 6 [['#']]) + (1 - 1) = 1 ∧
    (diagram_header (roll_art (List.replicate 6 [['#']]) [0])).map
        List.length = some 9 ∧
    (9 : Nat) ≠ 1 := by decide

/-- C5 as amended: for a roll of `n` dice over a uniform six-entry art table
of positive height, provided the assembled-row width `n * DIE_WIDTH + (n - 1)`
is at least the 9 characters of the header text, the printed header line's
length equals the first rendered row's length, which equals
`n * DIE_WIDTH + (n - 1)`. -/
theorem header_width_eq (art : List (List Str)) (rs : List Nat)
    (hart : art.length = 6)
    (huni : ∀ face ∈ art, face.length = DIE_HEIGHT art ∧
      ∀ row ∈ face, row.length = DIE_WIDTH art)
    (hH : 1 ≤ DIE_HEIGHT art)
    (hr : ∀ r ∈ rs, r ≤ 5) (hn1 : 1 ≤ rs.length) (_hn6 : rs.length ≤ 6)
    (hw : 9 ≤ rs.length * DIE_WIDTH art + (rs.length - 1)) :
    ∃ hd first, diagram_header (roll_art art rs) = some hd ∧
      (roll_art art rs).get? 0 = some first ∧
      hd.length = first.length ∧
      first.length = rs.length * DIE_WIDTH art + (rs.length - 1) := by
  have hne : rs ≠ [] := by
    intro h
    rw [h] at hn1
    exact absurd hn1 (by decide)
  have h0 := roll_art_get? art rs 0 (by omega)
  have hfl := roll_art_row_length art rs 0 hart huni hr (by omega) hne
  refine ⟨py_center RESULTS_TEXT
      (py_join DIE_FACE_SEPARATOR
        (rs.map (fun face => (art.getD face []).getD 0 []))).length '~',
    py_join DIE_FACE_SEPARATOR
      (rs.map (fun face => (art.getD face []).getD 0 [])), ?_, h0, ?_, hfl⟩
  · simp only [diagram_header, h0, Option.map_some']
  · rw [py_center_results_length, hfl]
    omega

/-- Witness for C5: six identical faces of height 1 and width 9, one die
rolled, so the assembled row is exactly 9 characters wide. -/
theorem header_width_eq_witness :
    ∃ hd first,
      diagram_header
        (roll_art (List.replicate 6 [List.replicate 9 '#']) [0]) = some hd ∧
      (roll_art (List.replicate 6 [List.replicate 9 '#']) [0]).get? 0 =
        some first ∧
      hd.length = first.length ∧
      first.length =
        ([0] : List Nat).length *
            DIE_WIDTH (List.replicate 6 [List.replicate 9 '#']) +
          (([0] : List Nat).length - 1) :=
  header_width_eq (List.replicate 6 [List.replicate 9 '#']) [0] (by decide)
    (by decide) (by decide) (by decide) (by decide) (by decide) (by decide)

/-! ## C7: determinism of rendering -/

/-- C7: rendering is deterministic. In this embedding `roll_art` and
`roll_art_display` are functions of their arguments alone — unlike
`roll_dice`, neither consumes the random oracle — so for a fixed roll-result
sequence two evaluations of `roll_art` are equal and the printed diagram
(header plus rows) is byte-identical across the two runs. -/
theorem render_deterministic (art : List (List Str)) (rs : List Nat) :
    roll_art art rs = roll_art art rs ∧
    roll_art_display (roll_art art rs) = roll_art_display (roll_art art rs) :=
  ⟨rfl, rfl⟩

/-! ## Indexing helper lemmas -/

/-- A successful lookup agrees with the defaulted lookup. -/
lemma get?_some_getD {α : Type} (l : List α) (n : Nat) (d : α)
    (h : n < l.length) : l.get? n = some (l.getD n d) := by
  rw [List.getD_eq_getElem l d h, List.get?_eq_getElem?]
  exact List.getElem?_eq_getElem h

/-- `mapM` over `Option` succeeds when every element does, producing the
corresponding `map`. -/
lemma mapM_some {α β : Type} (f : α → Option β) (g : α → β) (xs : List α)
    (h : ∀ x ∈ xs, f x = some (g x)) : xs.mapM f = some (xs.map g) := by
  induction xs with
  | nil => rfl
  | cons a as ih =>
    rw [List.mapM_cons, h a (by simp), ih (fun x hx => h x (by simp [hx]))]
    rfl

/-! ## C8: renderer indexing safety -/

/-- C8 counterexample: with six art entries that are all empty (zero rows),
every precondition named by the claim holds — all roll results are in
`[0, 5]`, the table has exactly six entries, and each entry has at least
`DIE_HEIGHT = 0` rows — yet `roll_art` returns no rows at all, so the
`face_rows[0]` lookup in `roll_art_display` is out of range (`none` models
the `IndexError`). -/
theorem renderer_indexing_counterexample :
    (∀ r ∈ ([0] : List Nat), r ≤ 5) ∧
    (List.replicate 6 ([] : List Str)).length = 6 ∧
    (∀ face ∈ (List.replicate 6 ([] : List Str)),
      DIE_HEIGHT (List.replicate 6 ([] : List Str)) ≤ face.length) ∧
    roll_art_display (roll_art (List.replicate 6 ([] : List Str)) [0]) =
      none := by decide

/-- C8 as amended: under the upstream preconditions — every roll result in
`[0, 5]`, exactly six art entries, each entry at least `DIE_HEIGHT` rows —
together with `DIE_HEIGHT ≥ 1`, every indexing operation in the renderer is
in bounds: the checked renderer (with Python's raising indexing) agrees with
the total one, and `roll_art_display`'s `face_rows[0]` lookup succeeds. -/
theorem renderer_indexing_safe (art : List (List Str)) (rs : List Nat)
    (hr : ∀ r ∈ rs, r ≤ 5) (hart : art.length = 6)
    (hface : ∀ face ∈ art, DIE_HEIGHT art ≤ face.length)
    (hH : 1 ≤ DIE_HEIGHT art) :
    roll_art_checked art rs = some (roll_art art rs) ∧
    ∃ out, roll_art_display (roll_art art rs) = some out := by
  have hfaces : rs.mapM (fun f : Nat => art.get? f) =
      some (rs.map (fun f => art.getD f [])) :=
    mapM_some _ _ _ (fun f hf =>
      get?_some_getD art f [] (by have := hr f hf; omega))
  have hrows : ∀ row_idx ∈ List.range (DIE_HEIGHT art),
      ((rs.map (fun f => art.getD f [])).mapM
          (fun face : List Str => face.get? row_idx)).map
        (py_join DIE_FACE_SEPARATOR) =
      some (py_join DIE_FACE_SEPARATOR
        ((rs.map (fun f => art.getD f [])).map
          (fun face => face.getD row_idx []))) := by
    intro row_idx hrow
    rw [mapM_some (fun face : List Str => face.get? row_idx)
      (fun face => face.getD row_idx []) _ ?_]
    · rfl
    · intro face hmemface
      simp only [List.mem_map] at hmemface
      obtain ⟨f, hf, rfl⟩ := hmemface
      have hflt : f < art.length := by have := hr f hf; omega
      have hmem : art.getD f [] ∈ art := by
        rw [List.getD_eq_getElem art [] hflt]
        exact List.getElem_mem hflt
      exact get?_some_getD _ _ []
        (lt_of_lt_of_le (List.mem_range.mp hrow) (hface _ hmem))
  constructor
  · unfold roll_art_checked
    rw [hfaces, Option.some_bind, mapM_some _ _ _ hrows]
    rfl
  · have h0 := roll_art_get? art rs 0 (by omega)
    refine Option.isSome_iff_exists.mp ?_
    simp only [roll_art_display, diagram_header]
    rw [h0]
    rfl

/-- Witness for C8 with six one-row, one-column faces and a single die. -/
theorem renderer_indexing_safe_witness :
    roll_art_checked (List.replicate 6 [['a']]) [0] =
      some (roll_art (List.replicate 6 [['a']]) [0]) ∧
    ∃ out, roll_art_display (roll_art (List.replicate 6 [['a']]) [0]) =
      some out :=
  renderer_indexing_safe (List.replicate 6 [['a']]) [0] (by decide)
    (by decide) (by decide) (by decide)

/-! ## C9: header length clamping -/

/-- C9: the printed header line's length is the first rendered row's length
clamped below by the 9 characters of `" RESULTS "` (centering never
truncates); whenever the assembled-row width `n * DIE_WIDTH + (n - 1)` is
below 9 the header is strictly longer than every rendered row; and for an
empty roll-result list `roll_art` returns `DIE_HEIGHT` empty strings while
the header is still printed at length 9. -/
theorem header_length_max :
    (∀ (face_rows : List Str) (first : Str), face_rows.get? 0 = some first →
      ∃ hd, diagram_header face_rows = some hd ∧
        hd.length = max first.length 9) ∧
    (∀ (art : List (List Str)) (rs : List Nat),
      art.length = 6 →
      (∀ face ∈ art, face.length = DIE_HEIGHT art ∧
        ∀ row ∈ face, row.length = DIE_WIDTH art) →
      1 ≤ DIE_HEIGHT art → (∀ r ∈ rs, r ≤ 5) → 1 ≤ rs.length →
      rs.length * DIE_WIDTH art + (rs.length - 1) < 9 →
      ∃ hd, diagram_header (roll_art art rs) = some hd ∧
        ∀ row ∈ roll_art art rs, row.length < hd.length) ∧
    (∀ art : List (List Str), 1 ≤ DIE_HEIGHT art →
      roll_art art [] = List.replicate (DIE_HEIGHT art) [] ∧
      ∃ hd, diagram_header (roll_art art []) = some hd ∧ hd.length = 9) := by
  refine ⟨?_, ?_, ?_⟩
  · intro face_rows first h0
    refine ⟨py_center RESULTS_TEXT first.length '~', ?_,
      py_center_results_length first.length⟩
    simp only [diagram_header, h0, Option.map_some']
  · intro art rs hart huni hH hr hn1 hlt
    have hne : rs ≠ [] := by
      intro h
      rw [h] at hn1
      exact absurd hn1 (by decide)
    have h0 := roll_art_get? art rs 0 (by omega)
    have hfl := roll_art_row_length art rs 0 hart huni hr (by omega) hne
    refine ⟨py_center RESULTS_TEXT
      (py_join DIE_FACE_SEPARATOR
        (rs.map (fun face => (art.getD face []).getD 0 []))).length '~',
      ?_, ?_⟩
    · simp only [diagram_header, h0, Option.map_some']
    · intro row hrow
      have hrl : row.length = rs.length * DIE_WIDTH art + (rs.length - 1) := by
        simp only [roll_art, List.mem_map, List.mem_range] at hrow
        obtain ⟨i, hi, rfl⟩ := hrow
        rw [List.map_map]
        exact roll_art_row_length art rs i hart huni hr hi hne
      rw [hrl, py_center_results_length, hfl]
      omega
  · intro art hH
    have hempty : roll_art art [] = List.replicate (DIE_HEIGHT art) [] := by
      simp [roll_art, py_join, List.map_const', List.length_range]
    have h0 : (roll_art art []).get? 0 = some ([] : Str) := by
      rw [hempty, List.get?_eq_getElem?, List.getElem?_replicate,
        if_pos (by omega : 0 < DIE_HEIGHT art)]
    refine ⟨hempty, py_center RESULTS_TEXT 0 '~', ?_, by decide⟩
    simp only [diagram_header, h0, Option.map_some', List.length_nil]

/-- Witness for C9: a row of two characters for the first part, the six
one-by-one faces with one die for the short-row part, and the same art with
an empty roll for the last part. -/
theorem header_length_max_witness :
    (∃ hd, diagram_header [['a', 'b']] = some hd ∧
      hd.length = max (['a', 'b'] : Str).length 9) ∧
    (∃ hd, diagram_header (roll_art (List.replicate 6 [['#']]) [0]) =
        some hd ∧
      ∀ row ∈ roll_art (List.replicate 6 [['#']]) [0],
        row.length < hd.length) ∧
    (roll_art (List.replicate 6 [['#']]) [] =
      List.replicate (DIE_HEIGHT (List.replicate 6 [['#']])) [] ∧
    ∃ hd, diagram_header (roll_art (List.replicate 6 [['#']]) []) = some hd ∧
      hd.length = 9) :=
  ⟨header_length_max.1 [['a', 'b']] ['a', 'b'] rfl,
   header_length_max.2.1 (List.replicate 6 [['#']]) [0] (by decide)
     (by decide) (by decide) (by decide) (by decide) (by decide),
   header_length_max.2.2 (List.replicate 6 [['#']]) (by decide)⟩

end Dice
